/-
Verification of the sourcecheck verification pipeline.

Shallow embedding of the Python sources under src/ (clinical-summary
verification pipeline): data types (src/checker/types.py), the arbitration
engine (src/checker/arbitration.py), the orchestrator's per-claim validator
loop and scoring (src/sourcecheck/checker.py), the completeness rubric
(src/checker/rubric/completeness.py), the path resolver
(src/sourcecheck/utils/path_resolver.py), the BM25 retriever post-processing
(src/checker/retrieval/bm25_retriever.py) and the temporal drift validator
(src/sourcecheck/validators/temporal_drift_validator.py).

Python floats are modelled as rationals; Python strings as Lean strings.
-/
import Mathlib

namespace Sourcecheck

/-- The closed verdict vocabulary (types.py VerdictType). -/
inductive Verdict
  | supported
  | refuted
  | insufficient_evidence
deriving DecidableEq, Repr

/-- Claim (types.py). Only the attributes the verified code reads are kept:
`field` and `text` (`value`, `confidence` and the metadata map are never read
by arbitration, scoring or the temporal validator paths embedded here). -/
structure Claim where
  field : String
  text : String
deriving DecidableEq, Repr

/-- EvidenceSpan (types.py): a scored excerpt of the transcript. -/
structure EvidenceSpan where
  text : String
  start_idx : Nat
  end_idx : Nat
  score : ℚ
deriving DecidableEq, Repr

/-- ValidatorResult (types.py): one validator's verdict for one claim. -/
structure ValidatorResult where
  validator : String
  verdict : Verdict
  explanation : String
  score : Option ℚ
deriving DecidableEq, Repr

/-- Disposition (types.py): the final record for one claim.  The `critical`
flag is carried by the sourcecheck variant of the type (its types.py is not
under src/; the flag is set by the temporal drift validator and the spec's
scenario S3 "Disposition marked critical"). -/
structure Disposition where
  claim : Claim
  verdict : Verdict
  evidence : List EvidenceSpan
  validator : String
  explanation : String
  validator_results : List ValidatorResult := []
  confidence : Option ℚ := none
  quality_score : Option ℚ := none
  critical : Bool := false
deriving DecidableEq, Repr

/-- Python `round(x, 3)`: rounding to 3 decimal places.  (Python rounds
half-to-even on binary floats; every use in this file applies the same
function on both sides of an equation, so the tie-breaking convention is
immaterial.  Mathlib `round` rounds half up.) -/
def round3 (x : ℚ) : ℚ := (round (x * 1000) : ℤ) / 1000

/-- First value bound to a key in a Python dict, rendered as an
insertion-ordered association list. -/
def alistLookup {α : Type} (l : List (String × α)) (k : String) : Option α :=
  (l.find? (fun p => decide (p.1 = k))).map (·.2)

/-- Python `text.lower()` (ASCII case folding). -/
def pyLower (s : String) : String := String.mk (s.toList.map Char.toLower)

/-- Python `text.strip()`: drop leading and trailing whitespace. -/
def pyStrip (s : String) : String :=
  String.mk (((s.toList.dropWhile Char.isWhitespace).reverse.dropWhile
    Char.isWhitespace).reverse)

/-- Split a character list at every separator satisfying `sep`, keeping empty
pieces (the semantics of Python `str.split(sep)` and `re.split`). -/
def splitSepAux (sep : Char → Bool) : List Char → List Char → List String
  | [], cur => [String.mk cur.reverse]
  | c :: rest, cur =>
    if sep c then String.mk cur.reverse :: splitSepAux sep rest []
    else splitSepAux sep rest (c :: cur)

/-- Python `text.split()`: split on whitespace runs, dropping empty pieces. -/
def pySplitWs (s : String) : List String :=
  (splitSepAux Char.isWhitespace s.toList []).filter (fun w => decide (w ≠ ""))

/-- Python `" ".join(parts)`-style joining with a separator. -/
def pyJoinAux (sep : List Char) : List (List Char) → List Char
  | [] => []
  | [x] => x
  | x :: y :: rest => x ++ sep ++ pyJoinAux sep (y :: rest)

/-- Python `sep.join(parts)`. -/
def pyJoin (sep : String) (parts : List String) : String :=
  String.mk (pyJoinAux sep.toList (parts.map String.toList))

/-- `ArbitrationEngine._lexical_overlap`: Jaccard similarity of the
lowercased whitespace-token sets of the two texts. -/
def lexicalOverlap (text1 text2 : String) : ℚ :=
  let words1 := (pySplitWs (pyLower text1)).toFinset
  let words2 := (pySplitWs (pyLower text2)).toFinset
  if words1 = ∅ ∨ words2 = ∅ then 0
  else ((words1 ∩ words2).card : ℚ) / ((words1 ∪ words2).card : ℚ)

/-- A conflict-resolution rule (arbitration.py, entries of
`cfg["conflict_resolution"]`), after the eager validation performed by
`validate_config`.  `threshold` defaults to 0.6 and `result_if_above` to
`supported` exactly as in `_apply_conflict_rules`. -/
structure ConflictRule where
  validators : List String
  action : String
  threshold : ℚ := 6/10
  result_if_above : Verdict := Verdict.supported
deriving DecidableEq, Repr

/-- Arbitration configuration (arbitration.py `__init__`), after
`validate_config` has accepted it: the verdict priority is already a list of
members of the closed verdict set. -/
structure AggregationConfig where
  strategy : String
  weights : List (String × ℚ)
  priority : List Verdict
  conflict_rules : List ConflictRule
  explain_conflicts : Bool
deriving Repr

/-- The configuration defaults of `ArbitrationEngine.__init__` for an empty
config dict. -/
def defaultAggregationConfig : AggregationConfig :=
  { strategy := ("priority_based")
    weights := []
    priority := [Verdict.refuted, Verdict.supported, Verdict.insufficient_evidence]
    conflict_rules := []
    explain_conflicts := true }

/-- `_apply_conflict_rules`: pick, for each validator name of a rule, the
first result bearing that name (inner `for vr ... break`). -/
def matchedResults (names : List String) (rs : List ValidatorResult) :
    List ValidatorResult :=
  names.filterMap (fun n => rs.find? (fun vr => decide (vr.validator = n)))

/-- `len(set(verdicts)) > 1`: the results do not all share one verdict. -/
def verdictsDisagree (rs : List ValidatorResult) : Bool :=
  decide ((rs.map (·.verdict)).dedup.length > 1)

/-- Walk the conflict-resolution rules in order (`_apply_conflict_rules`):
a rule fires when all its named validators are present among the results,
their verdicts disagree, the action is `check_lexical_overlap` and there is
evidence; otherwise the loop continues with the next rule. -/
def applyConflictRulesAux (claim : Claim) (rs : List ValidatorResult)
    (evidence : List EvidenceSpan) : List ConflictRule → Option Disposition
  | [] => none
  | rule :: rest =>
    if rule.validators.length < 2 then applyConflictRulesAux claim rs evidence rest
    else
      let matched := matchedResults rule.validators rs
      if matched.length = rule.validators.length ∧ verdictsDisagree matched then
        match evidence with
        | [] => applyConflictRulesAux claim rs evidence rest
        | e0 :: _ =>
          if rule.action = ("check_lexical_overlap") then
            let overlap := lexicalOverlap claim.text e0.text
            let conflictDesc := pyJoin (" vs ")
              (matched.map (fun vr => vr.validator))
            if overlap ≥ rule.threshold then
              some { claim := claim
                     verdict := rule.result_if_above
                     evidence := evidence
                     validator := ("arbitration_engine")
                     explanation :=
                       ("Conflict resolved via lexical overlap: ") ++ conflictDesc ++
                       (". Overlap above threshold.")
                     validator_results := rs }
            else
              let verdict := if matched.any (fun vr => decide (vr.verdict = Verdict.refuted))
                then Verdict.refuted else Verdict.insufficient_evidence
              some { claim := claim
                     verdict := verdict
                     evidence := evidence
                     validator := ("arbitration_engine")
                     explanation :=
                       ("Conflict resolved via lexical overlap: ") ++ conflictDesc ++
                       (". Overlap below threshold.")
                     validator_results := rs }
          else applyConflictRulesAux claim rs evidence rest
      else applyConflictRulesAux claim rs evidence rest

/-- `_apply_conflict_rules` over the configured rule list.  (The explanation
strings abbreviate the Python f-string float formatting; no theorem below
depends on arbitration explanation text.) -/
def applyConflictRules (cfg : AggregationConfig) (claim : Claim)
    (rs : List ValidatorResult) (evidence : List EvidenceSpan) : Option Disposition :=
  applyConflictRulesAux claim rs evidence cfg.conflict_rules

/-- `_calculate_quality_score`: agreement rate with the final verdict, times
0.9 when a refutation was overridden, rounded to 3 decimals. -/
def calculateQualityScore (rs : List ValidatorResult) (finalVerdict : Verdict) : ℚ :=
  match rs with
  | [] => 1
  | [_] => 1
  | _ :: _ :: _ =>
    let agreement := (rs.countP (fun vr => decide (vr.verdict = finalVerdict)) : ℚ)
    let rate := agreement / (rs.length : ℚ)
    let rate := if rs.any (fun vr =>
        decide (vr.verdict = Verdict.refuted) && decide (finalVerdict ≠ Verdict.refuted))
      then rate * (9/10) else rate
    round3 rate

/-- `_weighted_voting` vote tally for one verdict: sum over the results with
that verdict of `weight(validator) × (score or 1.0)`.  Missing validators get
weight 1.0 (`self.weights.get(vr.validator, 1.0)`). -/
def weightOf (weights : List (String × ℚ)) (name : String) : ℚ :=
  (alistLookup weights name).getD 1

/-- The per-verdict accumulated vote of `_weighted_voting`. -/
def verdictScore (weights : List (String × ℚ)) (rs : List ValidatorResult)
    (v : Verdict) : ℚ :=
  ((rs.filter (fun vr => decide (vr.verdict = v))).map
    (fun vr => weightOf weights vr.validator * vr.score.getD 1)).sum

/-- `max(verdict_scores, key=verdict_scores.get)`: Python iterates the dict
keys in insertion order `supported, refuted, insufficient_evidence` and
returns the first key attaining the maximum. -/
def argmaxVerdict (score : Verdict → ℚ) : Verdict :=
  let s := score Verdict.supported
  let r := score Verdict.refuted
  let i := score Verdict.insufficient_evidence
  if s ≥ r ∧ s ≥ i then Verdict.supported
  else if r ≥ i then Verdict.refuted
  else Verdict.insufficient_evidence

/-- `_weighted_voting`. -/
def weightedVoting (cfg : AggregationConfig) (claim : Claim)
    (rs : List ValidatorResult) (evidence : List EvidenceSpan) : Disposition :=
  let finalVerdict := argmaxVerdict (verdictScore cfg.weights rs)
  { claim := claim
    verdict := finalVerdict
    evidence := evidence
    validator := ("arbitration_engine")
    explanation := ("Weighted voting result.")
    validator_results := rs }

/-- `_priority_based` outer loop: walk `verdict_priority` in order and stop
at the first priority verdict some result carries, yielding that (first such)
result. -/
def firstByPriority (rs : List ValidatorResult) :
    List Verdict → Option ValidatorResult
  | [] => none
  | p :: ps =>
    match rs.find? (fun vr => decide (vr.verdict = p)) with
    | some vr => some vr
    | none => firstByPriority rs ps

/-- `_priority_based`: the selected result's verdict, validator, explanation
and score become the disposition; no match falls back to
`insufficient_evidence`. -/
def priorityBased (cfg : AggregationConfig) (claim : Claim)
    (rs : List ValidatorResult) (evidence : List EvidenceSpan) : Disposition :=
  match firstByPriority rs cfg.priority with
  | some vr =>
    let explanation :=
      if cfg.explain_conflicts ∧ rs.length > 1 then
        vr.explanation ++ (" (Priority-based selection.)")
      else vr.explanation
    { claim := claim
      verdict := vr.verdict
      evidence := evidence
      validator := vr.validator
      explanation := explanation
      validator_results := rs
      confidence := vr.score }
  | none =>
    { claim := claim
      verdict := Verdict.insufficient_evidence
      evidence := evidence
      validator := ("arbitration_engine")
      explanation := ("No validators provided conclusive verdict")
      validator_results := rs }

/-- `_unanimous`: the common verdict when all results agree, otherwise
`insufficient_evidence`. -/
def unanimous (claim : Claim) (rs : List ValidatorResult)
    (evidence : List EvidenceSpan) : Disposition :=
  let verdicts := rs.map (·.verdict)
  let verdict :=
    if verdicts.dedup.length = 1 then verdicts.headD Verdict.insufficient_evidence
    else Verdict.insufficient_evidence
  { claim := claim
    verdict := verdict
    evidence := evidence
    validator := ("arbitration_engine")
    explanation := ("Unanimity check.")
    validator_results := rs }

/-- `_majority`: the unique verdict with the most votes; any tie for the
maximum count yields `insufficient_evidence`. -/
def majority (claim : Claim) (rs : List ValidatorResult)
    (evidence : List EvidenceSpan) : Disposition :=
  let verdicts := rs.map (·.verdict)
  let counts : List (Verdict × Nat) := verdicts.dedup.map (fun v => (v, verdicts.count v))
  let maxCount : Nat := (counts.map (·.2)).foldr max 0
  let winners := (counts.filter (fun p => decide (p.2 = maxCount))).map (·.1)
  let verdict := match winners with
    | [w] => w
    | _ => Verdict.insufficient_evidence
  { claim := claim
    verdict := verdict
    evidence := evidence
    validator := ("arbitration_engine")
    explanation := ("Majority vote.")
    validator_results := rs }

/-- `_first_wins`: the first result decides. -/
def firstWins (cfg : AggregationConfig) (claim : Claim)
    (rs : List ValidatorResult) (evidence : List EvidenceSpan) : Disposition :=
  match rs with
  | [] =>
    { claim := claim
      verdict := Verdict.insufficient_evidence
      evidence := evidence
      validator := ("arbitration_engine")
      explanation := ("")
      validator_results := rs }
  | vr :: _ =>
    let explanation :=
      if cfg.explain_conflicts ∧ rs.length > 1 then
        vr.explanation ++ (" (First-wins strategy.)")
      else vr.explanation
    { claim := claim
      verdict := vr.verdict
      evidence := evidence
      validator := vr.validator
      explanation := explanation
      validator_results := rs
      confidence := vr.score }

/-- `ArbitrationEngine.arbitrate`: empty results short-circuit; a single
result passes through with its score as confidence; otherwise conflict rules
may fire, and failing that the configured strategy decides and the quality
score is attached. -/
def arbitrate (cfg : AggregationConfig) (claim : Claim)
    (rs : List ValidatorResult) (evidence : List EvidenceSpan) : Disposition :=
  match rs with
  | [] =>
    { claim := claim
      verdict := Verdict.insufficient_evidence
      evidence := evidence
      validator := ("arbitration_engine")
      explanation := ("No validator results to arbitrate")
      validator_results := [] }
  | [vr] =>
    { claim := claim
      verdict := vr.verdict
      evidence := evidence
      validator := vr.validator
      explanation := vr.explanation
      validator_results := rs
      confidence := vr.score }
  | _ :: _ :: _ =>
    let hasConflict := verdictsDisagree rs
    let resolved :=
      if hasConflict ∧ cfg.conflict_rules ≠ [] then
        applyConflictRules cfg claim rs evidence
      else none
    match resolved with
    | some d => d
    | none =>
      let d :=
        if cfg.strategy = ("weighted_voting") then weightedVoting cfg claim rs evidence
        else if cfg.strategy = ("unanimous") then unanimous claim rs evidence
        else if cfg.strategy = ("majority") then majority claim rs evidence
        else if cfg.strategy = ("first_wins") then firstWins cfg claim rs evidence
        else priorityBased cfg claim rs evidence
      { d with quality_score := some (calculateQualityScore rs d.verdict) }

/-! ## Orchestrator: per-claim validator loop (sourcecheck/checker.py) -/

/-- One entry of `policies.validators[field]` together with the outcome of
running it: `Checker.verify_summary` constructs the named validator and calls
`validate`; any exception raised on the way is caught.  The fallible Python
call is modelled as an `Except`: `ok (verdict, explanation)` is the returned
disposition's verdict and explanation, `error msg` the caught exception's
`str(e)`. -/
structure ValidatorSpec where
  name : String
  outcome : Except String (Verdict × String)
deriving Repr

/-- The per-claim loop of `verify_summary` (lines 118-154): each declared
validator contributes exactly one `ValidatorResult`; a success records the
validator's verdict and explanation with `score=None`, an exception is
converted to `insufficient_evidence` with explanation
`"Validator error: " ++ str(e)` and `score=None`. -/
def runValidators (specs : List ValidatorSpec) : List ValidatorResult :=
  specs.map (fun s =>
    match s.outcome with
    | Except.ok (v, e) =>
      { validator := s.name, verdict := v, explanation := e, score := none }
    | Except.error msg =>
      { validator := s.name
        verdict := Verdict.insufficient_evidence
        explanation := ("Validator error: ") ++ msg
        score := none })

/-- `verify_summary` appends a Disposition for the claim whenever the
collected `validator_results` list is non-empty (`if validator_results:`),
delegating to the arbitration engine. -/
def processClaim (cfg : AggregationConfig) (claim : Claim)
    (evidence : List EvidenceSpan) (specs : List ValidatorSpec) : Option Disposition :=
  let rs := runValidators specs
  if rs = [] then none
  else some (arbitrate cfg claim rs evidence)

/-! ## Document values, completeness and overall score -/

/-- A parsed JSON-like Python value (summary documents, nested field data). -/
inductive JValue
  | null
  | bool (b : Bool)
  | num (q : ℚ)
  | str (s : String)
  | arr (xs : List JValue)
  | obj (fields : List (String × JValue))

/-- Python truthiness of a value (`if not summary[field_name]`). -/
def pyTruthy : JValue → Bool
  | JValue.null => false
  | JValue.bool b => b
  | JValue.num q => decide (q ≠ 0)
  | JValue.str s => decide (s ≠ "")
  | JValue.arr xs => !xs.isEmpty
  | JValue.obj fields => !fields.isEmpty

/-- The schema entry for one field as read by the completeness rubric:
`field_config.get('required', False)`. -/
structure FieldSpec where
  required : Bool
deriving DecidableEq, Repr

/-- `schema['fields']` with the summary as a flat field/value map. -/
structure Schema where
  fields : List (String × FieldSpec)
deriving DecidableEq, Repr

/-- A summary document: an insertion-ordered field/value map. -/
def Summary : Type := List (String × JValue)

/-- `check_completeness`'s per-field test: a required field is missing when
it is absent from the summary, its value is falsy, or its value is a
whitespace-only string. -/
def fieldMissing (summary : Summary) (name : String) : Bool :=
  match alistLookup summary name with
  | none => true
  | some v =>
    if ¬ pyTruthy v then true
    else match v with
      | JValue.str s => decide (pyStrip s = "")
      | _ => false

/-- `check_completeness`: names of required fields that are missing or empty,
in schema order. -/
def checkCompleteness (summary : Summary) (schema : Schema) : List String :=
  ((schema.fields.filter (fun p => p.2.required)).filter
    (fun p => fieldMissing summary p.1)).map (·.1)

/-- `calculate_completeness_score`: present required fields over all required
fields, 1.0 when nothing is required. -/
def calculateCompletenessScore (summary : Summary) (schema : Schema) : ℚ :=
  let requiredFields := (schema.fields.filter (fun p => p.2.required)).map (·.1)
  if requiredFields = [] then 1
  else
    let missing := checkCompleteness summary schema
    ((requiredFields.length : ℚ) - (missing.length : ℚ)) / (requiredFields.length : ℚ)

/-- `_calculate_overall_score` (sourcecheck/checker.py): claim score by the
configured method, blended 70/30 with completeness, clamped to [0,1] and
rounded to 3 decimals.  An unknown method raises `ValueError`, modelled as
`Except.error`. -/
def calculateOverallScore (method : String) (dispositions : List Disposition)
    (summary : Summary) (schema : Schema) : Except String ℚ :=
  if dispositions = [] then Except.ok 0
  else
    let claimScoreE : Except String ℚ :=
      if method = ("simple") then
        Except.ok ((dispositions.countP (fun d => decide (d.verdict = Verdict.supported)) : ℚ)
          / (dispositions.length : ℚ))
      else if method = ("quality_weighted") then
        Except.ok (((dispositions.map (fun d =>
          (if d.verdict = Verdict.supported then (1 : ℚ) else 0) *
            d.quality_score.getD 1)).sum) / (dispositions.length : ℚ))
      else Except.error (("Unknown scoring method: ") ++ method)
    match claimScoreE with
    | Except.error e => Except.error e
    | Except.ok claimScore =>
      let completenessScore := calculateCompletenessScore summary schema
      let overall := (7/10) * claimScore + (3/10) * completenessScore
      Except.ok (round3 (max 0 (min 1 overall)))

/-! ## Retriever cache (sourcecheck/checker.py `_get_or_create_retriever`) -/

/-- `create_retriever(name, transcript, config)` is deterministic in its
arguments: a retriever value is modelled by the arguments it was built from.
The serialized config is `str(sorted(retriever_config.items()))`, modelled as
the sorted item list itself. -/
structure Retriever where
  name : String
  transcript : String
  config : List (String × String)
deriving DecidableEq, Repr

/-- `create_retriever` of the retrieval registry. -/
def createRetriever (name transcript : String) (config : List (String × String)) :
    Retriever :=
  { name := name, transcript := transcript, config := config }

/-- The cache key `(hash(transcript), retriever_name, config_key)`.  Python's
opaque string hash is a parameter `hashFn` of the cache operations. -/
def cacheKeyOf (hashFn : String → Int) (transcript name : String)
    (config : List (String × String)) : Int × String × List (String × String) :=
  (hashFn transcript, name,
    if config = [] then [] else config.mergeSort (fun a b => a.1 ≤ b.1))

/-- The Checker's retriever-cache state: insertion-ordered entries plus the
hit/miss counters (`_retriever_cache`, `_cache_hits`, `_cache_misses`). -/
structure CacheState where
  entries : List ((Int × String × List (String × String)) × Retriever)
  hits : Nat
  misses : Nat
deriving DecidableEq, Repr

/-- The state of a freshly constructed Checker. -/
def freshCache : CacheState := { entries := [], hits := 0, misses := 0 }

/-- `_get_or_create_retriever`: with caching off, always construct; with
caching on, look the key up (hit bumps `_cache_hits`), otherwise construct,
evict the oldest entry once `max_cache_size` is reached, and insert.  (With
`max_cache_size = 0` and an empty cache Python's `next(iter({}))` would raise
`StopIteration`; the eviction is guarded by non-emptiness here and every
theorem below assumes `1 ≤ maxSize`.) -/
def cacheLookup (l : List ((Int × String × List (String × String)) × Retriever))
    (k : Int × String × List (String × String)) : Option Retriever :=
  (l.find? (fun p => decide (p.1 = k))).map (·.2)

def getOrCreateRetriever (hashFn : String → Int) (cacheOn : Bool) (maxSize : Nat)
    (st : CacheState) (transcript name : String)
    (config : List (String × String)) : Retriever × CacheState :=
  if ¬ cacheOn then (createRetriever name transcript config, st)
  else
    let key := cacheKeyOf hashFn transcript name config
    match cacheLookup st.entries key with
    | some r => (r, { st with hits := st.hits + 1 })
    | none =>
      let r := createRetriever name transcript config
      let entries :=
        if st.entries.length ≥ maxSize ∧ st.entries ≠ [] then st.entries.drop 1
        else st.entries
      (r, { entries := entries ++ [(key, r)]
            hits := st.hits
            misses := st.misses + 1 })

/-! ## BM25 retriever (checker/retrieval/bm25_retriever.py `retrieve`) -/

/-- Python slice `s[a:b]` on character positions. -/
def pySlice (s : String) (a b : Nat) : String :=
  String.mk ((s.toList.drop a).take (b - a))

/-- The retriever state at the time `retrieve` runs: the chunks and absolute
chunk positions built by `_build_index`, the configured context window and
the transcript.  The raw BM25 scores `self.bm25.get_scores(claim_tokens)`
come from the external `rank_bm25` library and enter as a plain list aligned
with `chunks`. -/
structure BM25State where
  chunks : List String
  chunk_positions : List Nat
  context_window : Nat
  transcript : String

/-- The key order of `sorted(range(len(scores)), key=..., reverse=True)`:
higher score first, equal scores in index order (Python's sort is stable). -/
def bm25IdxLe (scores : List ℚ) (i j : Nat) : Prop :=
  scores.getD j 0 < scores.getD i 0 ∨ (scores.getD i 0 = scores.getD j 0 ∧ i ≤ j)

instance bm25IdxLe.decidable (scores : List ℚ) :
    DecidableRel (bm25IdxLe scores) := fun _ _ => by
  unfold bm25IdxLe; infer_instance

instance bm25IdxLe.total (scores : List ℚ) : IsTotal Nat (bm25IdxLe scores) where
  total i j := by
    unfold bm25IdxLe
    rcases lt_trichotomy (scores.getD i 0) (scores.getD j 0) with h | h | h
    · exact Or.inr (Or.inl h)
    · rcases Nat.le_total i j with hij | hij
      · exact Or.inl (Or.inr ⟨h, hij⟩)
      · exact Or.inr (Or.inr ⟨h.symm, hij⟩)
    · exact Or.inl (Or.inl h)

instance bm25IdxLe.trans (scores : List ℚ) : IsTrans Nat (bm25IdxLe scores) where
  trans i j k hij hjk := by
    unfold bm25IdxLe at *
    rcases hij with h1 | ⟨e1, l1⟩
    · rcases hjk with h2 | ⟨e2, _⟩
      · exact Or.inl (h2.trans h1)
      · exact Or.inl (e2 ▸ h1)
    · rcases hjk with h2 | ⟨e2, l2⟩
      · exact Or.inl (e1 ▸ h2)
      · exact Or.inr ⟨e1.trans e2, l1.trans l2⟩

/-- `sorted(range(len(scores)), key=lambda i: scores[i], reverse=True)`. -/
def bm25TopIndices (scores : List ℚ) : List Nat :=
  List.insertionSort (bm25IdxLe scores) (List.range scores.length)

/-- `BM25Retriever.retrieve` after the emptiness guards: rank all chunk
indices by raw score descending, keep the first `top_k`, drop candidates with
raw score below 0.1 and build spans whose score is `min(1, raw/10)` and whose
text is the chunk expanded by the context window and clamped to the
transcript (`max(0, ...)` is Nat subtraction here). -/
def bm25Retrieve (st : BM25State) (scores : List ℚ) (top_k : Nat) :
    List EvidenceSpan :=
  ((bm25TopIndices scores).take top_k).filterMap (fun idx =>
    let score := scores.getD idx 0
    if score < 1/10 then none
    else
      let chunkText := st.chunks.getD idx ("")
      let chunkPos := st.chunk_positions.getD idx 0
      let startIdx := chunkPos - st.context_window
      let endIdx := min st.transcript.length (chunkPos + chunkText.length + st.context_window)
      some { text := pyStrip (pySlice st.transcript startIdx endIdx)
             start_idx := startIdx
             end_idx := endIdx
             score := min 1 (score / 10) })

/-! ## Path resolver (sourcecheck/utils/path_resolver.py) -/

/-- Python `part.isdigit()` (ASCII digits; unicode digit forms are not
modelled). -/
def pyIsDigitStr (s : String) : Bool := decide (s ≠ "") && s.toList.all Char.isDigit

/-- `int(part)` for an all-digit string. -/
def strToNat (s : String) : Nat :=
  s.toList.foldl (fun n c => n * 10 + (c.toNat - ('0').toNat)) 0

/-- Python `needle in hay` substring containment. -/
def listContainsSub : List Char → List Char → Bool
  | needle, [] => needle.isEmpty
  | needle, c :: rest => needle.isPrefixOf (c :: rest) || listContainsSub needle rest

/-- `re.split` over the separators `.`, `[`, `]` with empty pieces removed
(`PathResolver._get_with_arrays`). -/
def splitParts (path : String) : List String :=
  (splitSepAux (fun c => c = '.' || c = '[' || c = ']') path.toList []).filter
    (fun p => decide (p ≠ ""))

/-- `PathResolver._get_nested`: walk dict keys, returning the default as soon
as the current value is not a dict carrying the key. -/
def getNested : JValue → List String → JValue → JValue
  | current, [], _ => current
  | current, k :: ks, dflt =>
    match current with
    | JValue.obj fields =>
      match alistLookup fields k with
      | some v => getNested v ks dflt
      | none => dflt
    | _ => dflt

/-- The loop of `PathResolver._get_with_arrays` over the split parts: digit
parts index lists, `*` returns the current list whole, other parts are dict
keys, with a list of dicts mapped over as a fallback. -/
def getWithArraysLoop : JValue → List String → JValue → JValue
  | current, [], _ => current
  | current, p :: ps, dflt =>
    if pyIsDigitStr p then
      match current with
      | JValue.arr xs =>
        match xs.get? (strToNat p) with
        | some v => getWithArraysLoop v ps dflt
        | none => dflt
      | _ => dflt
    else if p = ("*") then
      match current with
      | JValue.arr xs => JValue.arr xs
      | _ => dflt
    else
      match current with
      | JValue.obj fields =>
        match alistLookup fields p with
        | some v => getWithArraysLoop v ps dflt
        | none => dflt
      | JValue.arr xs =>
        let result := xs.filterMap (fun item =>
          match item with
          | JValue.obj f => alistLookup f p
          | _ => none)
        if result.isEmpty then dflt else JValue.arr result
      | _ => dflt

/-- The single-quote character, `chr(39)`. -/
def quoteChar : Char := Char.ofNat 39

/-- The anchored regex of `PathResolver._get_with_query`,
`([^\[]+)\[\?([^=]+)='([^']+)'\]\.?(.*)`, as a deterministic parser: each
negated character class takes the maximal run before its delimiter (the
classes make backtracking impossible), `\.?` greedily eats one dot, `(.*)`
takes the rest.  (`.` not matching a newline is not modelled; no path below
contains one.) -/
def parseQuery (path : String) : Option (String × String × String × String) :=
  let cs := path.toList
  let arrayPath := cs.takeWhile (fun c => c ≠ '[')
  if arrayPath.isEmpty then none
  else
    match cs.drop arrayPath.length with
    | '[' :: '?' :: rest2 =>
      let fieldCs := rest2.takeWhile (fun c => c ≠ '=')
      if fieldCs.isEmpty then none
      else
        match rest2.drop fieldCs.length with
        | '=' :: q1 :: rest4 =>
          if q1 = quoteChar then
            let valCs := rest4.takeWhile (fun c => c ≠ quoteChar)
            if valCs.isEmpty then none
            else
              match rest4.drop valCs.length with
              | q2 :: ']' :: rest6 =>
                if q2 = quoteChar then
                  let remaining :=
                    match rest6 with
                    | '.' :: r => r
                    | r => r
                  some (String.mk arrayPath, String.mk fieldCs,
                        String.mk valCs, String.mk remaining)
                else none
              | _ => none
          else none
        | _ => none
    | _ => none

mutual

/-- `PathResolver.get_value`, with a fuel argument discharging the mutual
recursion through query sub-paths (each nested call works on a strictly
shorter path, so the wrapper's `path.length + 1` fuel is never exhausted). -/
def getValueFuel (fuel : Nat) (data : JValue) (path : String) (dflt : JValue) :
    JValue :=
  match fuel with
  | 0 => dflt
  | fuel + 1 =>
    if path = "" then dflt
    else if path = (".") then data
    else
      match data with
      | JValue.str _ => dflt
      | JValue.obj _ =>
        if ¬ (path.toList.any (fun c => c = '[')) then
          getNested data (splitSepAux (fun c => c = '.') path.toList []) dflt
        else if listContainsSub ['[', '?'] path.toList then
          getWithQueryFuel fuel data path dflt
        else getWithArraysLoop data (splitParts path) dflt
      | _ => dflt
termination_by (fuel, 0, 0)

/-- `PathResolver._get_with_query`: parse the query path, resolve the array
sub-path (with `[]` as its default), then scan for the first dict item whose
`match_field` value is a string equal (case-insensitively, trimmed) to the
query value. -/
def getWithQueryFuel (fuel : Nat) (data : JValue) (path : String) (dflt : JValue) :
    JValue :=
  match parseQuery path with
  | none => dflt
  | some (arrayPath, matchField, matchValue, remaining) =>
    match getValueFuel fuel data arrayPath (JValue.arr []) with
    | JValue.arr items =>
      queryFind fuel items matchField (pyStrip (pyLower matchValue)) remaining dflt
    | _ => dflt
termination_by (fuel, 2, 0)

/-- The item scan of `_get_with_query`: non-dict items and non-string field
values are skipped; on a match the remaining path is resolved inside the
item (or the item itself is returned when no path remains). -/
def queryFind (fuel : Nat) (items : List JValue)
    (matchField matchValueLower remaining : String) (dflt : JValue) : JValue :=
  match items with
  | [] => dflt
  | item :: rest =>
    match item with
    | JValue.obj fields =>
      match (alistLookup fields matchField).getD (JValue.str ("")) with
      | JValue.str s =>
        if pyStrip (pyLower s) = matchValueLower then
          if remaining ≠ "" then getValueFuel fuel item remaining dflt
          else item
        else queryFind fuel rest matchField matchValueLower remaining dflt
      | _ => queryFind fuel rest matchField matchValueLower remaining dflt
    | _ => queryFind fuel rest matchField matchValueLower remaining dflt
termination_by (fuel, 1, items.length + 1)

end

/-- `PathResolver.get_value(data, path, default)`. -/
def getValue (data : JValue) (path : String) (dflt : JValue) : JValue :=
  getValueFuel (path.length + 1) data path dflt

/-! ## Temporal drift validator
(sourcecheck/validators/temporal_drift_validator.py) -/

/-- Python `\w` on ASCII text. -/
def isWordChar (c : Char) : Bool := c.isAlphanum || c = '_'

/-- `re.search(rf"\b{key}\b", text)` for a key that starts and ends with a
word character (true of every key in `relative_map`): the key occurs with no
word character immediately before or after. -/
def reSearchWord (key : List Char) (text : List Char) (prev : Option Char) : Bool :=
  (key.isPrefixOf text
    && (match prev with | none => true | some c => !isWordChar c)
    && (match text.drop key.length with | [] => true | c :: _ => !isWordChar c))
  || (match text with
      | [] => false
      | c :: rest => reSearchWord key rest (some c))

/-- `self.relative_map`: relative temporal expressions and their day
offsets, in insertion order. -/
def relativeMap : List (String × Int) :=
  [(("today"), 0), (("this morning"), 0), (("this afternoon"), 0),
   (("tonight"), 0), (("yesterday"), -1), (("last night"), -1),
   (("last week"), -7), (("last month"), -30), (("tomorrow"), 1),
   (("next week"), 7), (("next month"), 30)]

/-- The unit alternation of `self.numeric_pattern`,
`(\d+)\s*(day|week|month|year)s?\b`, with the day multipliers of
`_extract_temporal`. -/
def temporalUnits : List (String × Int) :=
  [(("day"), 1), (("week"), 7), (("month"), 30), (("year"), 365)]

/-- Attempt `self.numeric_pattern` at the head of `cs` (already lowercased):
maximal digit run, optional whitespace, a unit name, an optional `s`, then a
word boundary.  Returns the consumed length, the parsed number and the day
multiplier. -/
def tryNumericAt (cs : List Char) : Option (Nat × Nat × Int) :=
  let digits := cs.takeWhile Char.isDigit
  if digits.isEmpty then none
  else
    let rest1 := cs.drop digits.length
    let ws := rest1.takeWhile Char.isWhitespace
    let rest2 := rest1.drop ws.length
    temporalUnits.findSome? (fun u =>
      if u.1.toList.isPrefixOf rest2 then
        let rest3 := rest2.drop u.1.length
        let consumed := digits.length + ws.length + u.1.length
        match rest3 with
        | 's' :: rest4 =>
          if (match rest4 with | [] => true | c :: _ => !isWordChar c) then
            some (consumed + 1, strToNat (String.mk digits), u.2)
          else none
        | c :: _ => if !isWordChar c then some (consumed, strToNat (String.mk digits), u.2)
                    else none
        | [] => some (consumed, strToNat (String.mk digits), u.2)
      else none)

/-- `finditer` over the numeric pattern: scan left to right, non-overlapping
matches, recording the absolute start and end of each match.  The fuel is the
remaining text length (each step consumes at least one character). -/
def scanNumeric (fuel : Nat) (cs : List Char) (pos : Nat) :
    List (Nat × Nat × Nat × Int) :=
  match fuel, cs with
  | 0, _ => []
  | _, [] => []
  | fuel + 1, c :: rest =>
    match tryNumericAt (c :: rest) with
    | some (len, n, mult) =>
      (pos, pos + len, n, mult) :: scanNumeric fuel ((c :: rest).drop len) (pos + len)
    | none => scanNumeric fuel rest (pos + 1)

/-- `_extract_temporal`: relative-lexicon hits (each contributing its day
offset once), then each numeric match converted to days with the polarity
decided by `"in "` or `"next "` occurring in the ±10 character window around
the match (future), default past. -/
def extractTemporal (text : String) : List Int :=
  let tl := (pyLower text).toList
  let rel := relativeMap.filterMap (fun p =>
    if reSearchWord p.1.toList tl none then some p.2 else none)
  let numeric := (scanNumeric tl.length tl 0).map (fun m =>
    let (start, stop, n, mult) := m
    let wstart := start - 10
    let wend := min tl.length (stop + 10)
    let window := (tl.drop wstart).take (wend - wstart)
    if listContainsSub (("in ").toList) window || listContainsSub (("next ").toList) window
    then (n : Int) * mult
    else -(n : Int) * mult)
  rel ++ numeric

/-- The guard of validate's Case 3,
`any(isinstance(x, (int, float)) for x in claim_times + evidence_times)`:
`_extract_temporal` returns day offsets that are all Python ints, so the
predicate holds of every element and the `any` reduces to non-emptiness of
the concatenation. -/
def anyNumericValue (xs : List Int) : Bool := xs.any (fun _ => true)

/-- The stopword set of `TemporalDriftValidator._lexical_overlap`. -/
def tdStopwords : List String :=
  [("the"), ("a"), ("an"), ("and"), ("or"), ("but"), ("in"), ("on"), ("at"),
   ("to"), ("for"), ("is"), ("was"), ("were"), ("this"), ("that"), ("these"),
   ("those")]

/-- `TemporalDriftValidator._lexical_overlap`: stopword-filtered token
containment ratio of the claim tokens inside the evidence tokens. -/
def tdLexicalOverlap (a b : String) : ℚ :=
  let contentA := (pySplitWs (pyLower a)).toFinset \ tdStopwords.toFinset
  let contentB := (pySplitWs (pyLower b)).toFinset \ tdStopwords.toFinset
  if contentA = ∅ then 0
  else ((contentA ∩ contentB).card : ℚ) / (contentA.card : ℚ)

/-- `_compare_temporal_sets`: mean claim offset minus the first evidence
offset (evidence is truncated to its first expression when several). -/
def compareTemporalSets (claimTimes evidenceTimes : List Int) : ℚ :=
  if claimTimes.isEmpty || evidenceTimes.isEmpty then 0
  else
    let evidenceTimes := if evidenceTimes.length > 1 then evidenceTimes.take 1 else evidenceTimes
    let claimAvg := ((claimTimes.map (fun i => (i : ℚ))).sum) / (claimTimes.length : ℚ)
    let evidenceAvg := ((evidenceTimes.map (fun i => (i : ℚ))).sum) / (evidenceTimes.length : ℚ)
    claimAvg - evidenceAvg

/-- The unit alternation of `_extract_quantities_with_pint`,
`(\d+(?:\.\d+)?)\s*(milligrams?|grams?|kilograms?|mg|g|kg|milliliters?|liters?|ml|l)`,
in regex order: base spelling, whether an optional `s` follows, and the
normalized (pint `{units:~}` abbreviated) unit it maps to.  Pint itself is an
external library; its normalization of these ten spellings is the fixed map
below. -/
def quantityUnits : List (String × Bool × String) :=
  [(("milligram"), true, ("mg")), (("gram"), true, ("g")),
   (("kilogram"), true, ("kg")), (("mg"), false, ("mg")),
   (("g"), false, ("g")), (("kg"), false, ("kg")),
   (("milliliter"), true, ("ml")), (("liter"), true, ("l")),
   (("ml"), false, ("ml")), (("l"), false, ("l"))]

/-- Attempt the quantity pattern at the head of `cs` (original casing; the
pattern carries `re.IGNORECASE`): digits, an optional fraction part, optional
whitespace, then the first prefix-matching unit alternative with its optional
plural `s`.  Returns consumed length, the value as the matched string, and
the normalized unit. -/
def tryQuantityAt (cs : List Char) : Option (Nat × String × String) :=
  let digits := cs.takeWhile Char.isDigit
  if digits.isEmpty then none
  else
    let rest1 := cs.drop digits.length
    let fracPart : List Char :=
      match rest1 with
      | '.' :: cs2 =>
        let frac := cs2.takeWhile Char.isDigit
        if frac.isEmpty then [] else '.' :: frac
      | _ => []
    let rest2 := rest1.drop fracPart.length
    let ws := rest2.takeWhile Char.isWhitespace
    let rest3 := rest2.drop ws.length
    let rest3Lower := rest3.map Char.toLower
    quantityUnits.findSome? (fun u =>
      if u.1.toList.isPrefixOf rest3Lower then
        let consumed := digits.length + fracPart.length + ws.length + u.1.length
        let extraS : Nat :=
          match rest3Lower.drop u.1.length with
          | 's' :: _ => if u.2.1 then 1 else 0
          | _ => 0
        some (consumed + extraS, String.mk (digits ++ fracPart), u.2.2)
      else none)

/-- `finditer` over the quantity pattern (non-overlapping, left to right). -/
def scanQuantities (fuel : Nat) (cs : List Char) : List (String × String) :=
  match fuel, cs with
  | 0, _ => []
  | _, [] => []
  | fuel + 1, c :: rest =>
    match tryQuantityAt (c :: rest) with
    | some (len, v, norm) => (v, norm) :: scanQuantities fuel ((c :: rest).drop len)
    | none => scanQuantities fuel rest

/-- `_extract_quantities_with_pint` as (value string, normalized unit)
pairs.  The code compares `value` as the matched string and `normalized_unit`;
the raw unit spelling is only echoed in log text. -/
def extractQuantities (text : String) : List (String × String) :=
  scanQuantities text.length text.toList

/-- Inner quantity loop of `_check_numeric_drift` on one span's quantities:
`some true` = exact match found (breaks), `some false` = unit mismatch
(same value, different normalized unit; breaks), `none` = neither. -/
def quantityScan (cVal cNorm : String) : List (String × String) → Option Bool
  | [] => none
  | (eVal, eNorm) :: rest =>
    if cVal = eVal ∧ cNorm = eNorm then some true
    else if cVal = eVal ∧ cNorm ≠ eNorm then some false
    else quantityScan cVal cNorm rest

/-- Span loop of `_check_numeric_drift`: stop at the first span that yields a
match or a mismatch for this claim quantity. -/
def highSpanScan (cVal cNorm : String) : List EvidenceSpan → Option Bool
  | [] => none
  | ev :: rest =>
    match quantityScan cVal cNorm (extractQuantities ev.text) with
    | some r => some r
    | none => highSpanScan cVal cNorm rest

/-- Outer claim-quantity loop of `_check_numeric_drift`: the first claim
quantity whose span scan ends in a unit mismatch triggers the critical
refutation. -/
def claimQuantityLoop (high : List EvidenceSpan) : List (String × String) → Bool
  | [] => false
  | (cVal, cNorm) :: rest =>
    match highSpanScan cVal cNorm high with
    | some false => true
    | _ => claimQuantityLoop high rest

/-- `_check_numeric_drift`: enabled check, claim quantities present,
high-relevance evidence (score > 0.5) present, and some claim quantity hits
a same-value different-unit quantity first. -/
def checkNumericDrift (enabled : Bool) (claimText : String)
    (evidence : List EvidenceSpan) : Bool :=
  if ¬ enabled then false
  else
    let cq := extractQuantities claimText
    if cq.isEmpty then false
    else
      let high := evidence.filter (fun ev => decide (ev.score > 1/2))
      if high.isEmpty then false
      else claimQuantityLoop high cq

/-- The temporal drift validator's configuration defaults. -/
structure TDConfig where
  drift_threshold : ℚ := 7
  check_numeric_drift : Bool := true
deriving Repr

/-- `TemporalDriftValidator.validate`: no evidence ⇒ insufficient; critical
numeric mismatch ⇒ refuted (critical); then the four temporal cases in
order.  (The transcript argument is accepted and unused, as in the source.) -/
def tdValidate (cfg : TDConfig) (claim : Claim) (evidence : List EvidenceSpan)
    (transcript : String) : Disposition :=
  let _ := transcript
  match evidence with
  | [] =>
    { claim := claim
      verdict := Verdict.insufficient_evidence
      evidence := []
      validator := ("temporal_drift_validator")
      explanation := ("No evidence available") }
  | _ =>
    if checkNumericDrift cfg.check_numeric_drift claim.text evidence then
      { claim := claim
        verdict := Verdict.refuted
        evidence := evidence
        validator := ("temporal_drift_validator")
        explanation := ("CRITICAL UNIT MISMATCH")
        critical := true }
    else
      let claimTimes := extractTemporal claim.text
      let evidenceText := pyJoin (" ") (evidence.map (·.text))
      let evidenceTimes := extractTemporal evidenceText
      if claimTimes.isEmpty && evidenceTimes.isEmpty then
        { claim := claim
          verdict := Verdict.supported
          evidence := evidence
          validator := ("temporal_drift_validator")
          explanation := ("No temporal expressions found") }
      else if ¬ claimTimes.isEmpty && evidenceTimes.isEmpty then
        if tdLexicalOverlap claim.text evidenceText > 2/5 then
          { claim := claim
            verdict := Verdict.supported
            evidence := evidence
            validator := ("temporal_drift_validator")
            explanation := ("Temporal reference in claim but absent from evidence; overlap suggests same event.") }
        else
          { claim := claim
            verdict := Verdict.insufficient_evidence
            evidence := evidence
            validator := ("temporal_drift_validator")
            explanation := ("Temporal reference in claim but absent from evidence") }
      else if claimTimes.toFinset ≠ evidenceTimes.toFinset
          ∧ ¬ anyNumericValue (claimTimes ++ evidenceTimes) then
        { claim := claim
          verdict := Verdict.refuted
          evidence := evidence
          validator := ("temporal_drift_validator")
          explanation := ("Different temporal anchors") }
      else
        let diff := |compareTemporalSets claimTimes evidenceTimes|
        if diff > cfg.drift_threshold then
          { claim := claim
            verdict := Verdict.refuted
            evidence := evidence
            validator := ("temporal_drift_validator")
            explanation := ("Temporal drift detected") }
        else
          { claim := claim
            verdict := Verdict.supported
            evidence := evidence
            validator := ("temporal_drift_validator")
            explanation := ("Temporal alignment OK") }

/-! ## Spec-side definitions (formalizing the claim texts, to be compared
with the source embeddings above) -/

/-- Spec: quality score = fraction of validator results agreeing with the
final verdict, times 0.9 when some validator said refuted but the final
verdict is not refuted, rounded to 3 decimals. -/
def specQualityScore (rs : List ValidatorResult) (final : Verdict) : ℚ :=
  let agreeFrac : ℚ :=
    ((rs.filter (fun vr => decide (vr.verdict = final))).length : ℚ) / (rs.length : ℚ)
  round3 (if rs.any (fun vr => decide (vr.verdict = Verdict.refuted)) ∧ final ≠ Verdict.refuted
    then agreeFrac * (9/10) else agreeFrac)

/-- Spec: claim score under `quality_weighted` = mean over dispositions of
`(verdict == supported ? 1 : 0) × (quality_score or 1)`. -/
def specClaimScore (ds : List Disposition) : ℚ :=
  ((ds.map (fun d =>
    (if d.verdict = Verdict.supported then (1 : ℚ) else 0) * d.quality_score.getD 1)).sum)
    / (ds.length : ℚ)

/-- Spec: completeness = fraction of required schema fields with non-empty
values, 1.0 when no field is required (counted directly, unlike the code's
subtraction of the missing list). -/
def specCompleteness (summary : Summary) (schema : Schema) : ℚ :=
  let req := (schema.fields.filter (fun p => p.2.required)).map (·.1)
  if req = [] then 1
  else ((req.countP (fun n => ! fieldMissing summary n)) : ℚ) / (req.length : ℚ)

/-- Spec: overall score = `round(clamp(0.7·claim_score + 0.3·completeness,
0, 1), 3)`. -/
def specOverallScore (ds : List Disposition) (summary : Summary) (schema : Schema) : ℚ :=
  round3 (max 0 (min 1 ((7/10) * specClaimScore ds + (3/10) * specCompleteness summary schema)))

/-! ## C8: path resolver contract -/

/-- C8: `PathResolver.get_value(data, path, default)` is total by
construction of the embedding (`getValue` is a Lean function; every fallible
Python operation it performs is guarded in the source).  On a type mismatch
(data neither a dict nor a string) with a path other than `.` it returns the
default, and the path `.` returns the data unchanged for every data value. -/
theorem path_resolver_contract (data : JValue) (path : String) (dflt : JValue)
    (hdot : path ≠ (".")) (hnotdict : ∀ fields, data ≠ JValue.obj fields)
    (hnotstr : ∀ s, data ≠ JValue.str s) :
    getValue data path dflt = dflt ∧ ∀ d : JValue, getValue d (".") dflt = d := by
  constructor
  · cases data with
    | str s => exact absurd rfl (hnotstr s)
    | obj fields => exact absurd rfl (hnotdict fields)
    | null =>
      unfold getValue getValueFuel
      by_cases hempty : path = "" <;> simp [hempty, hdot]
    | bool b =>
      unfold getValue getValueFuel
      by_cases hempty : path = "" <;> simp [hempty, hdot]
    | num q =>
      unfold getValue getValueFuel
      by_cases hempty : path = "" <;> simp [hempty, hdot]
    | arr xs =>
      unfold getValue getValueFuel
      by_cases hempty : path = "" <;> simp [hempty, hdot]
  · intro d
    unfold getValue getValueFuel
    simp

/-- C8 witness: the contract at `data = 5`, `path = "a.b"`, and the root
path on a raw string. -/
theorem path_resolver_contract_witness :
    getValue (JValue.num 5) ("a.b") (JValue.str ("dflt")) = JValue.str ("dflt")
    ∧ getValue (JValue.str ("raw text")) (".") (JValue.str ("dflt"))
        = JValue.str ("raw text") := by
  have h := path_resolver_contract (JValue.num 5) ("a.b") (JValue.str ("dflt"))
    (by decide) (fun _ h => by cases h) (fun _ h => by cases h)
  exact ⟨h.1, h.2 (JValue.str ("raw text"))⟩

/-! ## C10: the orchestrator never propagates validator scores -/

/-- C10: every ValidatorResult built by `verify_summary`'s validator loop has
`score = None`; consequently a single-result arbitration yields
`confidence = None`, and the weighted-voting tally of any score-free result
list degenerates to a plain sum of validator weights (each weighted by
`weight × 1.0`). -/
theorem orchestrator_scores_none (specs : List ValidatorSpec)
    (cfg : AggregationConfig) (c : Claim) (ev : List EvidenceSpan)
    (weights : List (String × ℚ)) :
    (∀ vr ∈ runValidators specs, vr.score = none)
    ∧ (∀ vr : ValidatorResult, vr.score = none →
        (arbitrate cfg c [vr] ev).confidence = none)
    ∧ (∀ rs : List ValidatorResult, ∀ v : Verdict, (∀ vr ∈ rs, vr.score = none) →
        verdictScore weights rs v
          = ((rs.filter (fun vr => decide (vr.verdict = v))).map
              (fun vr => weightOf weights vr.validator)).sum) := by
  refine ⟨?_, ?_, ?_⟩
  · intro vr hvr
    simp only [runValidators, List.mem_map] at hvr
    obtain ⟨s, _, rfl⟩ := hvr
    cases h : s.outcome with
    | ok p => cases p; simp [h]
    | error msg => simp [h]
  · intro vr hscore
    simp [arbitrate, hscore]
  · intro rs v hnone
    unfold verdictScore
    congr 1
    apply List.map_congr_left
    intro vr hvr
    have : vr.score = none := hnone vr (List.mem_of_mem_filter hvr)
    simp [this]

/-- C10 witness: a successful validator spec produces a score-free result,
and a score-free single result passes `None` confidence through. -/
theorem orchestrator_scores_none_witness :
    ({ validator := ("bm25_validator"), verdict := Verdict.supported
       explanation := (""), score := none } : ValidatorResult).score = none
    ∧ (arbitrate defaultAggregationConfig { field := ("f"), text := ("t") }
        [{ validator := ("bm25_validator"), verdict := Verdict.supported
           explanation := (""), score := none }] []).confidence = none := by
  refine ⟨rfl, ?_⟩
  exact (orchestrator_scores_none [] defaultAggregationConfig
    { field := ("f"), text := ("t") } [] []).2.1
    { validator := ("bm25_validator"), verdict := Verdict.supported
      explanation := (""), score := none } rfl

/-! ## C4: failure isolation -/

/-- C4: when the k-th declared validator of a claim fails (its construction
or `validate` call raises), the orchestrator still produces one
ValidatorResult per declared validator, the k-th one carries verdict
`insufficient_evidence` with explanation `"Validator error: " ++ str(e)`,
and a Disposition is still produced for the claim. -/
theorem failure_isolation (cfg : AggregationConfig) (c : Claim)
    (ev : List EvidenceSpan) (specs : List ValidatorSpec) (k : Nat)
    (hk : k < specs.length) (msg : String)
    (herr : (specs.get ⟨k, hk⟩).outcome = Except.error msg) :
    (runValidators specs).length = specs.length
    ∧ ∃ hk2 : k < (runValidators specs).length,
        ((runValidators specs).get ⟨k, hk2⟩).verdict = Verdict.insufficient_evidence
        ∧ ((runValidators specs).get ⟨k, hk2⟩).explanation = ("Validator error: ") ++ msg
    ∧ ∃ d : Disposition, processClaim cfg c ev specs = some d := by
  have hlen : (runValidators specs).length = specs.length := by
    simp [runValidators]
  refine ⟨hlen, ?_⟩
  have hk2 : k < (runValidators specs).length := by rw [hlen]; exact hk
  have hget : (runValidators specs).get ⟨k, hk2⟩ =
      (fun s : ValidatorSpec =>
        match s.outcome with
        | Except.ok (v, e) =>
          ({ validator := s.name, verdict := v, explanation := e, score := none } : ValidatorResult)
        | Except.error m =>
          { validator := s.name
            verdict := Verdict.insufficient_evidence
            explanation := ("Validator error: ") ++ m
            score := none }) (specs.get ⟨k, hk⟩) := by
    simp [runValidators]
  have hval : (runValidators specs).get ⟨k, hk2⟩
      = { validator := (specs.get ⟨k, hk⟩).name
          verdict := Verdict.insufficient_evidence
          explanation := ("Validator error: ") ++ msg
          score := none } := by
    rw [hget]
    simp only [herr]
  refine ⟨hk2, ?_, ?_, ?_⟩
  · rw [hval]
  · rw [hval]
  · have hne : runValidators specs ≠ [] := by
      intro hnil
      rw [hnil] at hlen
      have : specs.length = 0 := hlen.symm
      omega
    refine ⟨arbitrate cfg c (runValidators specs) ev, ?_⟩
    simp [processClaim, hne]

/-- C4 witness: a single failing validator on a claim: one synthesized
result, verdict insufficient_evidence, the error message preserved, and a
Disposition still produced. -/
theorem failure_isolation_witness :
    (runValidators [{ name := ("nli_validator"), outcome := Except.error ("boom") }]).length = 1
    ∧ ∃ hk2 : 0 < (runValidators [{ name := ("nli_validator"), outcome := Except.error ("boom") }]).length,
        ((runValidators [{ name := ("nli_validator"), outcome := Except.error ("boom") }]).get
          ⟨0, hk2⟩).verdict = Verdict.insufficient_evidence
        ∧ ((runValidators [{ name := ("nli_validator"), outcome := Except.error ("boom") }]).get
            ⟨0, hk2⟩).explanation = ("Validator error: ") ++ ("boom")
    ∧ ∃ d : Disposition,
        processClaim defaultAggregationConfig { field := ("f"), text := ("t") } []
          [{ name := ("nli_validator"), outcome := Except.error ("boom") }] = some d :=
  failure_isolation defaultAggregationConfig { field := ("f"), text := ("t") } []
    [{ name := ("nli_validator"), outcome := Except.error ("boom") }] 0
    (by decide) ("boom") rfl

/-! ## C7: cache transparency -/

/-- C7: on a freshly constructed Checker (for any transcript hash function,
any cache capacity of at least one, any transcript/retriever/config), the
retriever obtained with caching enabled is the one obtained with caching
disabled — so the VerificationReport, a function of the retriever and the
other inputs, is identical; and after two identical calls the cache stats
show exactly one hit and one miss. -/
theorem cache_transparency (hashFn : String → Int) (maxSize : Nat)
    (_hmax : 1 ≤ maxSize) (t name : String) (config : List (String × String)) :
    (getOrCreateRetriever hashFn true maxSize freshCache t name config).1
      = (getOrCreateRetriever hashFn false maxSize freshCache t name config).1
    ∧ ((getOrCreateRetriever hashFn true maxSize
          (getOrCreateRetriever hashFn true maxSize freshCache t name config).2
          t name config).1
        = (getOrCreateRetriever hashFn false maxSize freshCache t name config).1
      ∧ (getOrCreateRetriever hashFn true maxSize
          (getOrCreateRetriever hashFn true maxSize freshCache t name config).2
          t name config).2.hits = 1
      ∧ (getOrCreateRetriever hashFn true maxSize
          (getOrCreateRetriever hashFn true maxSize freshCache t name config).2
          t name config).2.misses = 1) := by
  have hkey : decide (cacheKeyOf hashFn t name config = cacheKeyOf hashFn t name config)
      = true := by simp
  have hfirst : getOrCreateRetriever hashFn true maxSize freshCache t name config
      = (createRetriever name t config,
         { entries := [(cacheKeyOf hashFn t name config, createRetriever name t config)]
           hits := 0
           misses := 1 }) := by
    simp [getOrCreateRetriever, freshCache, cacheLookup]
  have hsecond : getOrCreateRetriever hashFn true maxSize
      ({ entries := [(cacheKeyOf hashFn t name config, createRetriever name t config)]
         hits := 0
         misses := 1 } : CacheState) t name config
      = (createRetriever name t config,
         { entries := [(cacheKeyOf hashFn t name config, createRetriever name t config)]
           hits := 1
           misses := 1 }) := by
    simp [getOrCreateRetriever, cacheLookup, List.find?, hkey]
  have huncached : (getOrCreateRetriever hashFn false maxSize freshCache t name config).1
      = createRetriever name t config := by
    simp [getOrCreateRetriever]
  refine ⟨?_, ?_, ?_, ?_⟩ <;>
    simp [hfirst, hsecond, huncached]

/-- C7 witness: length-hash, capacity 100, a concrete transcript and the
default bm25 retriever. -/
theorem cache_transparency_witness :
    (getOrCreateRetriever (fun s => (s.length : Int)) true 100 freshCache
        ("Patient reports chest pain.") ("bm25") []).1
      = (getOrCreateRetriever (fun s => (s.length : Int)) false 100 freshCache
          ("Patient reports chest pain.") ("bm25") []).1
    ∧ ((getOrCreateRetriever (fun s => (s.length : Int)) true 100
          (getOrCreateRetriever (fun s => (s.length : Int)) true 100 freshCache
            ("Patient reports chest pain.") ("bm25") []).2
          ("Patient reports chest pain.") ("bm25") []).1
        = (getOrCreateRetriever (fun s => (s.length : Int)) false 100 freshCache
            ("Patient reports chest pain.") ("bm25") []).1
      ∧ (getOrCreateRetriever (fun s => (s.length : Int)) true 100
          (getOrCreateRetriever (fun s => (s.length : Int)) true 100 freshCache
            ("Patient reports chest pain.") ("bm25") []).2
          ("Patient reports chest pain.") ("bm25") []).2.hits = 1
      ∧ (getOrCreateRetriever (fun s => (s.length : Int)) true 100
          (getOrCreateRetriever (fun s => (s.length : Int)) true 100 freshCache
            ("Patient reports chest pain.") ("bm25") []).2
          ("Patient reports chest pain.") ("bm25") []).2.misses = 1) :=
  cache_transparency (fun s => (s.length : Int)) 100 (by decide)
    ("Patient reports chest pain.") ("bm25") []

/-! ## C6: evidence retention in arbitrate -/

/-- Conflict-rule resolutions embed the caller's evidence list unchanged. -/
lemma applyConflictRulesAux_evidence (c : Claim) (rs : List ValidatorResult)
    (ev : List EvidenceSpan) :
    ∀ rules : List ConflictRule, ∀ d : Disposition,
      applyConflictRulesAux c rs ev rules = some d → d.evidence = ev := by
  intro rules
  induction rules with
  | nil => intro d h; simp [applyConflictRulesAux] at h
  | cons rule rest ih =>
    intro d h
    rw [applyConflictRulesAux] at h
    by_cases h1 : rule.validators.length < 2
    · rw [if_pos h1] at h; exact ih d h
    · rw [if_neg h1] at h
      by_cases h2 : (matchedResults rule.validators rs).length = rule.validators.length
          ∧ verdictsDisagree (matchedResults rule.validators rs)
      · rw [if_pos h2] at h
        cases ev with
        | nil => exact ih d h
        | cons e0 etail =>
          dsimp only at h
          by_cases h3 : rule.action = ("check_lexical_overlap")
          · rw [if_pos h3] at h
            by_cases h4 : lexicalOverlap c.text e0.text ≥ rule.threshold
            · rw [if_pos h4] at h
              cases h
              rfl
            · rw [if_neg h4] at h
              cases h
              rfl
          · rw [if_neg h3] at h; exact ih d h
      · rw [if_neg h2] at h; exact ih d h

/-- C6 counterexample: `arbitrate` itself never truncates evidence — with six
input spans the returned Disposition holds six spans, violating the claimed
universal 5-span bound. -/
theorem evidence_cap_counterexample :
    ¬ ((arbitrate defaultAggregationConfig { field := ("f"), text := ("x y") }
        [{ validator := ("a"), verdict := Verdict.supported, explanation := (""), score := none },
         { validator := ("b"), verdict := Verdict.refuted, explanation := (""), score := none }]
        (List.replicate 6 { text := ("x y"), start_idx := 0, end_idx := 3, score := 1 })).evidence.length
      ≤ 5) := by
  decide

/-- C6 amended: the Disposition returned by `ArbitrationEngine.arbitrate`
carries exactly the evidence list it was given (the 5-span bound of the
pipeline comes from the orchestrator retrieving with
`top_k = max_evidence_spans = 5`, not from arbitrate); in particular the
bound holds whenever the input already satisfies it. -/
theorem arbitrate_evidence_passthrough (cfg : AggregationConfig) (c : Claim)
    (rs : List ValidatorResult) (ev : List EvidenceSpan) :
    (arbitrate cfg c rs ev).evidence = ev
    ∧ (ev.length ≤ 5 → (arbitrate cfg c rs ev).evidence.length ≤ 5) := by
  have hpass : (arbitrate cfg c rs ev).evidence = ev := by
    match rs with
    | [] => rfl
    | [vr] => rfl
    | a :: b :: t =>
      simp only [arbitrate]
      by_cases hres : (if verdictsDisagree (a :: b :: t) ∧ cfg.conflict_rules ≠ [] then
          applyConflictRules cfg c (a :: b :: t) ev else none) = none
      · rw [hres]
        by_cases h1 : cfg.strategy = ("weighted_voting")
        · simp [h1, weightedVoting]
        · by_cases h2 : cfg.strategy = ("unanimous")
          · simp [h1, h2, unanimous]
          · by_cases h3 : cfg.strategy = ("majority")
            · simp [h1, h2, h3, majority]
            · by_cases h4 : cfg.strategy = ("first_wins")
              · simp [h1, h2, h3, h4, firstWins]
              · simp only [h1, h2, h3, h4, if_false]
                rw [priorityBased]
                cases hfind : firstByPriority (a :: b :: t) cfg.priority <;> simp [hfind]
      · obtain ⟨d, hd⟩ := Option.ne_none_iff_exists'.mp hres
        rw [hd]
        simp only
        split at hd
        · exact applyConflictRulesAux_evidence c (a :: b :: t) ev cfg.conflict_rules d hd
        · cases hd
  exact ⟨hpass, fun h => by rw [hpass]; exact h⟩

/-- C6 amended witness: with five spans in, at most five spans out. -/
theorem arbitrate_evidence_passthrough_witness :
    (arbitrate defaultAggregationConfig { field := ("f"), text := ("x y") }
        [{ validator := ("a"), verdict := Verdict.supported, explanation := (""), score := none },
         { validator := ("b"), verdict := Verdict.refuted, explanation := (""), score := none }]
        (List.replicate 5 { text := ("x y"), start_idx := 0, end_idx := 3, score := 1 })).evidence
      = List.replicate 5 { text := ("x y"), start_idx := 0, end_idx := 3, score := 1 }
    ∧ (arbitrate defaultAggregationConfig { field := ("f"), text := ("x y") }
        [{ validator := ("a"), verdict := Verdict.supported, explanation := (""), score := none },
         { validator := ("b"), verdict := Verdict.refuted, explanation := (""), score := none }]
        (List.replicate 5 { text := ("x y"), start_idx := 0, end_idx := 3, score := 1 })).evidence.length
      ≤ 5 := by
  have h := arbitrate_evidence_passthrough defaultAggregationConfig
    { field := ("f"), text := ("x y") }
    [{ validator := ("a"), verdict := Verdict.supported, explanation := (""), score := none },
     { validator := ("b"), verdict := Verdict.refuted, explanation := (""), score := none }]
    (List.replicate 5 { text := ("x y"), start_idx := 0, end_idx := 3, score := 1 })
  exact ⟨h.1, h.2 (by decide)⟩

/-! ## C1: priority dominance -/

/-- A result list containing a refuted result makes `firstByPriority` pick a
refuted result under the default priority order. -/
lemma firstByPriority_refuted (rs : List ValidatorResult)
    (href : ∃ vr ∈ rs, vr.verdict = Verdict.refuted) :
    ∃ vr, firstByPriority rs
        [Verdict.refuted, Verdict.supported, Verdict.insufficient_evidence] = some vr
      ∧ vr.verdict = Verdict.refuted := by
  obtain ⟨vr0, hmem, hv⟩ := href
  have hsome : (rs.find? (fun vr => decide (vr.verdict = Verdict.refuted))).isSome := by
    rw [List.find?_isSome]
    exact ⟨vr0, hmem, by simp [hv]⟩
  obtain ⟨vr1, hfind⟩ := Option.isSome_iff_exists.mp hsome
  refine ⟨vr1, ?_, ?_⟩
  · rw [firstByPriority, hfind]
  · have := List.find?_some hfind
    simpa using this

/-- C1: under the default `priority_based` strategy and default
`verdict_priority`, with two or more validator results of which at least one
is `refuted` and with no conflict-resolution rule firing, the arbitrated
verdict is `refuted`. -/
theorem priority_dominance (cfg : AggregationConfig) (c : Claim)
    (rs : List ValidatorResult) (ev : List EvidenceSpan)
    (hstrat : cfg.strategy = ("priority_based"))
    (hpri : cfg.priority
      = [Verdict.refuted, Verdict.supported, Verdict.insufficient_evidence])
    (hlen : 2 ≤ rs.length)
    (href : ∃ vr ∈ rs, vr.verdict = Verdict.refuted)
    (hrules : applyConflictRules cfg c rs ev = none) :
    (arbitrate cfg c rs ev).verdict = Verdict.refuted := by
  match rs, hlen with
  | a :: b :: t, _ =>
    simp only [arbitrate]
    have hres : (if verdictsDisagree (a :: b :: t) ∧ cfg.conflict_rules ≠ [] then
        applyConflictRules cfg c (a :: b :: t) ev else none) = none := by
      by_cases hguard : verdictsDisagree (a :: b :: t) ∧ cfg.conflict_rules ≠ []
      · rw [if_pos hguard]; exact hrules
      · rw [if_neg hguard]
    rw [hres]
    have h1 : ¬ cfg.strategy = ("weighted_voting") := by rw [hstrat]; decide
    have h2 : ¬ cfg.strategy = ("unanimous") := by rw [hstrat]; decide
    have h3 : ¬ cfg.strategy = ("majority") := by rw [hstrat]; decide
    have h4 : ¬ cfg.strategy = ("first_wins") := by rw [hstrat]; decide
    simp only [h1, h2, h3, h4, if_false]
    obtain ⟨vr1, hfind, hv⟩ := firstByPriority_refuted (a :: b :: t) href
    rw [priorityBased, hpri] at *
    rw [hfind]
    exact hv

/-- C1 witness: two results, one supported and one refuted, under the
default configuration: the verdict is refuted. -/
theorem priority_dominance_witness :
    (arbitrate defaultAggregationConfig { field := ("f"), text := ("x y") }
        [{ validator := ("a"), verdict := Verdict.supported, explanation := (""), score := none },
         { validator := ("b"), verdict := Verdict.refuted, explanation := (""), score := none }]
        [{ text := ("x y"), start_idx := 0, end_idx := 3, score := 1 }]).verdict
      = Verdict.refuted :=
  priority_dominance defaultAggregationConfig { field := ("f"), text := ("x y") }
    [{ validator := ("a"), verdict := Verdict.supported, explanation := (""), score := none },
     { validator := ("b"), verdict := Verdict.refuted, explanation := (""), score := none }]
    [{ text := ("x y"), start_idx := 0, end_idx := 3, score := 1 }]
    rfl rfl (by decide)
    ⟨{ validator := ("b"), verdict := Verdict.refuted, explanation := (""), score := none },
      by decide, rfl⟩
    (by decide)

/-! ## C3: quality score of fused results -/

/-- Distributing a constant conjunct out of a Boolean `any`. -/
lemma any_and_const {α : Type} (l : List α) (p : α → Bool) (c : Bool) :
    (l.any fun x => p x && c) = (l.any p && c) := by
  cases c <;> simp

/-- For two or more results the code's `_calculate_quality_score` computes
exactly the spec's penalized agreement fraction. -/
lemma calculateQualityScore_eq_spec (a b : ValidatorResult)
    (t : List ValidatorResult) (v : Verdict) :
    calculateQualityScore (a :: b :: t) v = specQualityScore (a :: b :: t) v := by
  simp only [calculateQualityScore, specQualityScore]
  rw [List.countP_eq_length_filter]
  rw [any_and_const]
  by_cases hv : v = Verdict.refuted
  · simp [hv]
  · simp [hv]

/-- C3 counterexample: when a `check_lexical_overlap` conflict rule fires,
`arbitrate` returns the rule's disposition without attaching any quality
score, so the claimed formula fails (`quality_score` is `None`, not the
penalized agreement fraction). -/
theorem quality_score_conflict_rule_counterexample :
    ¬ ((arbitrate
        { strategy := ("priority_based")
          weights := []
          priority := [Verdict.refuted, Verdict.supported, Verdict.insufficient_evidence]
          conflict_rules := [{ validators := [("a"), ("b")], action := ("check_lexical_overlap") }]
          explain_conflicts := true }
        { field := ("f"), text := ("x y") }
        [{ validator := ("a"), verdict := Verdict.supported, explanation := (""), score := none },
         { validator := ("b"), verdict := Verdict.refuted, explanation := (""), score := none }]
        [{ text := ("x y"), start_idx := 0, end_idx := 3, score := 1 }]).quality_score
      = some (specQualityScore
          [{ validator := ("a"), verdict := Verdict.supported, explanation := (""), score := none },
           { validator := ("b"), verdict := Verdict.refuted, explanation := (""), score := none }]
          (arbitrate
            { strategy := ("priority_based")
              weights := []
              priority := [Verdict.refuted, Verdict.supported, Verdict.insufficient_evidence]
              conflict_rules := [{ validators := [("a"), ("b")], action := ("check_lexical_overlap") }]
              explain_conflicts := true }
            { field := ("f"), text := ("x y") }
            [{ validator := ("a"), verdict := Verdict.supported, explanation := (""), score := none },
             { validator := ("b"), verdict := Verdict.refuted, explanation := (""), score := none }]
            [{ text := ("x y"), start_idx := 0, end_idx := 3, score := 1 }]).verdict)) := by
  with_unfolding_all decide

/-- C3 amended: whenever `arbitrate` fuses two or more results and no
conflict-resolution rule fires, the Disposition's quality score is the
fraction of results agreeing with the final verdict, times 0.9 when a
refutation was overridden, rounded to 3 decimals.  (When a rule fires the
quality score is left unset.) -/
theorem quality_score_agreement (cfg : AggregationConfig) (c : Claim)
    (rs : List ValidatorResult) (ev : List EvidenceSpan)
    (hlen : 2 ≤ rs.length)
    (hrules : applyConflictRules cfg c rs ev = none) :
    (arbitrate cfg c rs ev).quality_score
      = some (specQualityScore rs (arbitrate cfg c rs ev).verdict) := by
  match rs, hlen with
  | a :: b :: t, _ =>
    simp only [arbitrate]
    have hres : (if verdictsDisagree (a :: b :: t) ∧ cfg.conflict_rules ≠ [] then
        applyConflictRules cfg c (a :: b :: t) ev else none) = none := by
      by_cases hguard : verdictsDisagree (a :: b :: t) ∧ cfg.conflict_rules ≠ []
      · rw [if_pos hguard]; exact hrules
      · rw [if_neg hguard]
    rw [hres]
    dsimp only
    exact congrArg some (calculateQualityScore_eq_spec a b t _)

/-- C3 amended witness: scenario S4 — validators A (`supported`, weight 3)
and B (`refuted`, weight 1) under `weighted_voting`: the verdict is
`supported` and the quality score is `round3((1/2)·0.9) = 0.45`. -/
theorem quality_score_agreement_witness :
    (arbitrate
        { strategy := ("weighted_voting")
          weights := [(("a"), 3), (("b"), 1)]
          priority := [Verdict.refuted, Verdict.supported, Verdict.insufficient_evidence]
          conflict_rules := []
          explain_conflicts := true }
        { field := ("f"), text := ("x y") }
        [{ validator := ("a"), verdict := Verdict.supported, explanation := (""), score := none },
         { validator := ("b"), verdict := Verdict.refuted, explanation := (""), score := none }]
        [{ text := ("x y"), start_idx := 0, end_idx := 3, score := 1 }]).quality_score
      = some (specQualityScore
          [{ validator := ("a"), verdict := Verdict.supported, explanation := (""), score := none },
           { validator := ("b"), verdict := Verdict.refuted, explanation := (""), score := none }]
          (arbitrate
            { strategy := ("weighted_voting")
              weights := [(("a"), 3), (("b"), 1)]
              priority := [Verdict.refuted, Verdict.supported, Verdict.insufficient_evidence]
              conflict_rules := []
              explain_conflicts := true }
            { field := ("f"), text := ("x y") }
            [{ validator := ("a"), verdict := Verdict.supported, explanation := (""), score := none },
             { validator := ("b"), verdict := Verdict.refuted, explanation := (""), score := none }]
            [{ text := ("x y"), start_idx := 0, end_idx := 3, score := 1 }]).verdict)
    ∧ (arbitrate
        { strategy := ("weighted_voting")
          weights := [(("a"), 3), (("b"), 1)]
          priority := [Verdict.refuted, Verdict.supported, Verdict.insufficient_evidence]
          conflict_rules := []
          explain_conflicts := true }
        { field := ("f"), text := ("x y") }
        [{ validator := ("a"), verdict := Verdict.supported, explanation := (""), score := none },
         { validator := ("b"), verdict := Verdict.refuted, explanation := (""), score := none }]
        [{ text := ("x y"), start_idx := 0, end_idx := 3, score := 1 }]).verdict
      = Verdict.supported
    ∧ specQualityScore
        [{ validator := ("a"), verdict := Verdict.supported, explanation := (""), score := none },
         { validator := ("b"), verdict := Verdict.refuted, explanation := (""), score := none }]
        Verdict.supported = 45/100 :=
  ⟨quality_score_agreement
      { strategy := ("weighted_voting")
        weights := [(("a"), 3), (("b"), 1)]
        priority := [Verdict.refuted, Verdict.supported, Verdict.insufficient_evidence]
        conflict_rules := []
        explain_conflicts := true }
      { field := ("f"), text := ("x y") }
      [{ validator := ("a"), verdict := Verdict.supported, explanation := (""), score := none },
       { validator := ("b"), verdict := Verdict.refuted, explanation := (""), score := none }]
      [{ text := ("x y"), start_idx := 0, end_idx := 3, score := 1 }]
      (by decide) rfl,
    by with_unfolding_all decide,
    by with_unfolding_all decide⟩

/-! ## C2: overall score -/

/-- The code's completeness (total minus missing over total) equals the
spec's direct fraction of present required fields. -/
lemma completeness_eq_spec (summary : Summary) (schema : Schema) :
    calculateCompletenessScore summary schema = specCompleteness summary schema := by
  unfold calculateCompletenessScore specCompleteness checkCompleteness
  by_cases h : (schema.fields.filter (fun p => p.2.required)).map (·.1) = []
  · rw [if_pos h, if_pos h]
  · rw [if_neg h, if_neg h]
    have hlenmap : ((schema.fields.filter (fun p => p.2.required)).map (·.1)).length
        = (schema.fields.filter (fun p => p.2.required)).length := List.length_map _ _
    have hmissing :
        (((schema.fields.filter (fun p => p.2.required)).filter
          (fun p => fieldMissing summary p.1)).map (·.1)).length
        = (schema.fields.filter (fun p => p.2.required)).countP
            (fun p => fieldMissing summary p.1) := by
      rw [List.length_map, List.countP_eq_length_filter]
    have hcount : ((schema.fields.filter (fun p => p.2.required)).map (·.1)).countP
        (fun n => ! fieldMissing summary n)
        = (schema.fields.filter (fun p => p.2.required)).countP
            (fun p => ! fieldMissing summary p.1) := by
      rw [List.countP_map]
      rfl
    simp only [hlenmap, hmissing, hcount]
    have hsplit : (schema.fields.filter (fun p => p.2.required)).length
        = (schema.fields.filter (fun p => p.2.required)).countP
            (fun p => fieldMissing summary p.1)
          + (schema.fields.filter (fun p => p.2.required)).countP
              (fun p => ! fieldMissing summary p.1) := by
      have hraw := List.length_eq_countP_add_countP
        (fun p : String × FieldSpec => fieldMissing summary p.1)
        (schema.fields.filter (fun p => p.2.required))
      simpa using hraw
    rw [hsplit]
    push_cast
    ring_nf

/-- C2: with at least one disposition and the default `quality_weighted`
method, `_calculate_overall_score` returns exactly the spec formula
`round(clamp(0.7·claim_score + 0.3·completeness, 0, 1), 3)` with claim score
the quality-weighted support mean and completeness the required-field
fraction.  (With zero dispositions the code short-circuits to 0.0 and the
mean is undefined.) -/
theorem overall_score_spec (ds : List Disposition) (summary : Summary)
    (schema : Schema) (h : ds ≠ []) :
    calculateOverallScore ("quality_weighted") ds summary schema
      = Except.ok (specOverallScore ds summary schema) := by
  unfold calculateOverallScore specOverallScore specClaimScore
  rw [if_neg h]
  have hm1 : ¬ (("quality_weighted") : String) = ("simple") := by decide
  rw [if_neg hm1, if_pos rfl]
  rw [completeness_eq_spec]

/-- C2 witness: one supported disposition without quality score, one
required field present: the overall score is `round3(0.7·1 + 0.3·1) = 1`. -/
theorem overall_score_spec_witness :
    calculateOverallScore ("quality_weighted")
        [{ claim := { field := ("f1"), text := ("hi") }
           verdict := Verdict.supported
           evidence := []
           validator := ("v")
           explanation := ("") }]
        [(("f1"), JValue.str ("hi"))]
        { fields := [(("f1"), { required := true })] }
      = Except.ok (specOverallScore
          [{ claim := { field := ("f1"), text := ("hi") }
             verdict := Verdict.supported
             evidence := []
             validator := ("v")
             explanation := ("") }]
          [(("f1"), JValue.str ("hi"))]
          { fields := [(("f1"), { required := true })] })
    ∧ specOverallScore
        [{ claim := { field := ("f1"), text := ("hi") }
           verdict := Verdict.supported
           evidence := []
           validator := ("v")
           explanation := ("") }]
        [(("f1"), JValue.str ("hi"))]
        { fields := [(("f1"), { required := true })] } = 1 :=
  ⟨overall_score_spec
      [{ claim := { field := ("f1"), text := ("hi") }
         verdict := Verdict.supported
         evidence := []
         validator := ("v")
         explanation := ("") }]
      [(("f1"), JValue.str ("hi"))]
      { fields := [(("f1"), { required := true })] }
      (List.cons_ne_nil _ _),
    by with_unfolding_all decide⟩

/-! ## C9: BM25 retrieve ordering and score bounds -/

/-- C9: for every retriever state, raw score vector and `top_k`,
`BM25Retriever.retrieve` returns spans in (weakly) descending span-score
order, and every returned span stems from a chunk whose raw BM25 score is at
least 0.1, carries score `min(1, raw/10)`, and that score lies in
[0.01, 1]. -/
theorem bm25_retrieve_sorted_and_bounded (st : BM25State) (scores : List ℚ)
    (top_k : Nat) :
    List.Pairwise (fun a b : EvidenceSpan => b.score ≤ a.score)
      (bm25Retrieve st scores top_k)
    ∧ ∀ sp ∈ bm25Retrieve st scores top_k,
        ∃ i, i < scores.length ∧ (1/10 : ℚ) ≤ scores.getD i 0
          ∧ sp.score = min 1 (scores.getD i 0 / 10)
          ∧ (1/100 : ℚ) ≤ sp.score ∧ sp.score ≤ 1 := by
  have hmono : ∀ i j : Nat, bm25IdxLe scores i j →
      min (1:ℚ) (scores.getD j 0 / 10) ≤ min 1 (scores.getD i 0 / 10) := by
    intro i j hij
    have hle : scores.getD j 0 ≤ scores.getD i 0 := by
      rcases hij with h | ⟨h, _⟩
      · exact le_of_lt h
      · exact le_of_eq h.symm
    gcongr
  constructor
  · have hsorted : List.Pairwise (bm25IdxLe scores) (bm25TopIndices scores) :=
      List.sorted_insertionSort (bm25IdxLe scores) (List.range scores.length)
    have htake : List.Pairwise (bm25IdxLe scores) ((bm25TopIndices scores).take top_k) :=
      hsorted.sublist (List.take_sublist _ _)
    unfold bm25Retrieve
    refine List.Pairwise.filterMap _ ?_ htake
    intro i j hij x hx y hy
    by_cases hlowi : scores.getD i 0 < 1/10
    · rw [if_pos hlowi] at hx
      cases hx
    · rw [if_neg hlowi] at hx
      by_cases hlowj : scores.getD j 0 < 1/10
      · rw [if_pos hlowj] at hy
        cases hy
      · rw [if_neg hlowj] at hy
        cases hx
        cases hy
        exact hmono i j hij
  · intro sp hsp
    unfold bm25Retrieve at hsp
    obtain ⟨i, hi_mem, hf⟩ := List.mem_filterMap.mp hsp
    have hi : i < scores.length := by
      have h1 : i ∈ bm25TopIndices scores := List.mem_of_mem_take hi_mem
      have h2 := (List.perm_insertionSort (bm25IdxLe scores)
        (List.range scores.length)).mem_iff.mp h1
      exact List.mem_range.mp h2
    by_cases hlow : scores.getD i 0 < 1/10
    · rw [if_pos hlow] at hf
      cases hf
    · rw [if_neg hlow] at hf
      have hge : (1/10 : ℚ) ≤ scores.getD i 0 := le_of_not_lt hlow
      cases hf
      refine ⟨i, hi, hge, rfl, ?_, min_le_left _ _⟩
      refine le_min (by norm_num) ?_
      linarith

/-! ## C5: symbolic temporal mismatch -/

/-- C5: the claim text `"yesterday"` and the single evidence span
`"last week"` extract the non-empty, distinct temporal sets `{-1}` and
`{-7}` with no numeric-pattern expression involved, yet `validate` returns
`supported`: the guard of the symbolic-mismatch branch tests
`isinstance(x, (int, float))` over day offsets that are always ints, so the
branch the validator's own docstring describes (refuting `"yesterday"` vs
`"last week"`) is unreachable and the case falls through to the drift
computation (|-1 - (-7)| = 6 ≤ 7 ⇒ supported). -/
theorem symbolic_mismatch_not_refuted :
    extractTemporal ("yesterday") = [-1]
    ∧ extractTemporal ("last week") = [-7]
    ∧ extractTemporal ("yesterday") ≠ []
    ∧ extractTemporal ("last week") ≠ []
    ∧ (extractTemporal ("yesterday")).toFinset ≠ (extractTemporal ("last week")).toFinset
    ∧ (tdValidate {} { field := ("chief_complaint"), text := ("yesterday") }
        [{ text := ("last week"), start_idx := 0, end_idx := 9, score := 1 }]
        ("Patient fell last week.")).verdict = Verdict.supported := by
  with_unfolding_all decide

/-- C9 witness: raw scores [5, 20] with ample `top_k`: the top span has score
`min(1, 20/10) = 1` and every bound of the theorem holds at it. -/
theorem bm25_retrieve_sorted_and_bounded_witness :
    ∃ i, i < ([5, 20] : List ℚ).length ∧ (1/10 : ℚ) ≤ ([5, 20] : List ℚ).getD i 0
      ∧ ((bm25Retrieve
            { chunks := [("aa"), ("bb")], chunk_positions := [0, 2]
              context_window := 0, transcript := ("aabb") }
            [5, 20] 5).headD
          { text := ("?"), start_idx := 0, end_idx := 1, score := 0 }).score
        = min 1 (([5, 20] : List ℚ).getD i 0 / 10)
      ∧ (1/100 : ℚ) ≤ ((bm25Retrieve
            { chunks := [("aa"), ("bb")], chunk_positions := [0, 2]
              context_window := 0, transcript := ("aabb") }
            [5, 20] 5).headD
          { text := ("?"), start_idx := 0, end_idx := 1, score := 0 }).score
      ∧ ((bm25Retrieve
            { chunks := [("aa"), ("bb")], chunk_positions := [0, 2]
              context_window := 0, transcript := ("aabb") }
            [5, 20] 5).headD
          { text := ("?"), start_idx := 0, end_idx := 1, score := 0 }).score ≤ 1 :=
  (bm25_retrieve_sorted_and_bounded
    { chunks := [("aa"), ("bb")], chunk_positions := [0, 2]
      context_window := 0, transcript := ("aabb") }
    [5, 20] 5).2
    ((bm25Retrieve
        { chunks := [("aa"), ("bb")], chunk_positions := [0, 2]
          context_window := 0, transcript := ("aabb") }
        [5, 20] 5).headD
      { text := ("?"), start_idx := 0, end_idx := 1, score := 0 })
    (by with_unfolding_all decide)
